import Mathlib

/-!
Verification of the ParkPin marker screen (src/app/(tabs)/_layout.tsx and
src/app/app.tsx): a single optional geographic marker held in memory,
persisted as JSON text under the AsyncStorage key "marker", with a
permission-gated position fix and a map viewport derived from the marker.

The embedding models JavaScript numbers as exact decimal values
(mantissa / 10 ^ places), JSON text as `List Char`, `JSON.parse` as an
executable recursive-descent parser over the JSON grammar, and
`JSON.stringify` of the coordinate object as exact decimal printing.
-/

namespace ParkPin

/-- A JavaScript number as parsed from or printed to JSON numeric text:
the exact decimal value `m / 10 ^ e`. -/
structure JNum where
  m : Int
  e : Nat
deriving DecidableEq

/-- A JSON value, the possible results of `JSON.parse`. -/
inductive Json where
  | null : Json
  | bool (b : Bool) : Json
  | num (n : JNum) : Json
  | str (s : String) : Json
  | arr (elems : List Json) : Json
  | obj (members : List (String × Json)) : Json

/-- JSON whitespace characters (space, tab, line feed, carriage return). -/
def isWs (c : Char) : Bool :=
  c = ' ' || c = Char.ofNat 9 || c = Char.ofNat 10 || c = Char.ofNat 13

/-- Drop leading JSON whitespace. -/
def skipWs : List Char → List Char
  | [] => []
  | c :: t => if isWs c then skipWs t else c :: t

/-- Read a maximal run of decimal digits, returning their values
(most significant first) and the remaining input. -/
def readDigits : List Char → List Nat × List Char
  | [] => ([], [])
  | c :: t =>
    if '0' ≤ c ∧ c ≤ '9' then
      let p := readDigits t
      ((c.toNat - 48) :: p.1, p.2)
    else ([], c :: t)

/-- Value of a most-significant-first digit list. -/
def ofDigitsM (ds : List Nat) : Nat :=
  ds.foldl (fun a d => 10 * a + d) 0

/-- Finish parsing a number: `neg`/`ids`/`fds` are the sign, integer digits
and fraction digits already read; `cs` is the remaining input, which may
start with an exponent part. -/
def finishNumber (neg : Bool) (ids fds : List Nat) (cs : List Char) :
    Option (JNum × List Char) :=
  let m0 : Int := (ofDigitsM ids * 10 ^ fds.length + ofDigitsM fds : Nat)
  let m1 : Int := if neg then -m0 else m0
  match cs with
  | [] => some (⟨m1, fds.length⟩, [])
  | c :: t =>
    if c = 'e' ∨ c = 'E' then
      let st : Bool × List Char :=
        match t with
        | [] => (true, t)
        | d :: u => if d = '+' then (true, u) else if d = '-' then (false, u) else (true, t)
      match readDigits st.2 with
      | ([], _) => none
      | (eds, cs4) =>
        if st.1 then some (⟨m1 * (10 : Int) ^ ofDigitsM eds, fds.length⟩, cs4)
        else some (⟨m1, fds.length + ofDigitsM eds⟩, cs4)
    else some (⟨m1, fds.length⟩, c :: t)

/-- Parse the optional fraction part then finish the number. -/
def fracAndFinish (neg : Bool) (ids : List Nat) (cs : List Char) :
    Option (JNum × List Char) :=
  match cs with
  | [] => finishNumber neg ids [] []
  | c :: t =>
    if c = '.' then
      match readDigits t with
      | ([], _) => none
      | (fds, r) => finishNumber neg ids fds r
    else finishNumber neg ids [] (c :: t)

/-- Parse a JSON number after the optional sign: integer part with the
JSON no-leading-zero rule, then fraction and exponent. -/
def parseNumTail (neg : Bool) (cs : List Char) : Option (JNum × List Char) :=
  match readDigits cs with
  | ([], _) => none
  | (ids, cs2) =>
    if 2 ≤ ids.length ∧ ids.head? = some 0 then none
    else fracAndFinish neg ids cs2

/-- Parse a JSON number literal (sign, integer part with the JSON
no-leading-zero rule, optional fraction, optional exponent). -/
def parseNumber (cs : List Char) : Option (JNum × List Char) :=
  match cs with
  | [] => none
  | c :: t => if c = '-' then parseNumTail true t else parseNumTail false (c :: t)

/-- Value of a hexadecimal digit character, if it is one. -/
def hexVal (c : Char) : Option Nat :=
  if '0' ≤ c ∧ c ≤ '9' then some (c.toNat - 48)
  else if 'a' ≤ c ∧ c ≤ 'f' then some (c.toNat - 87)
  else if 'A' ≤ c ∧ c ≤ 'F' then some (c.toNat - 55)
  else none

/-- The character denoted by a single-character JSON string escape. -/
def escVal (c : Char) : Option Char :=
  if c = '"' then some '"'
  else if c = '\\' then some '\\'
  else if c = '/' then some '/'
  else if c = 'b' then some (Char.ofNat 8)
  else if c = 'f' then some (Char.ofNat 12)
  else if c = 'n' then some (Char.ofNat 10)
  else if c = 'r' then some (Char.ofNat 13)
  else if c = 't' then some (Char.ofNat 9)
  else none

/-- Read the body of a JSON string after the opening quote, handling
escapes, up to and including the closing quote. -/
def readStringAux : List Char → Option (List Char × List Char)
  | [] => none
  | c :: rest =>
    if c = '"' then some ([], rest)
    else if c = '\\' then
      match rest with
      | [] => none
      | d :: r2 =>
        if d = 'u' then
          match r2 with
          | a :: b :: c2 :: e2 :: r3 =>
            match hexVal a, hexVal b, hexVal c2, hexVal e2 with
            | some x1, some x2, some x3, some x4 =>
              (readStringAux r3).map
                (fun p => (Char.ofNat (((x1 * 16 + x2) * 16 + x3) * 16 + x4) :: p.1, p.2))
            | _, _, _, _ => none
          | _ => none
        else
          match escVal d with
          | some ec => (readStringAux r2).map (fun p => (ec :: p.1, p.2))
          | none => none
    else if c.toNat < 32 then none
    else (readStringAux rest).map (fun p => (c :: p.1, p.2))

/-- Consume an expected literal run of characters. -/
def dropLit : List Char → List Char → Option (List Char)
  | [], cs => some cs
  | _ :: _, [] => none
  | p :: ps, c :: cs => if c = p then dropLit ps cs else none

mutual

/-- Parse one JSON value. `fuel` bounds the recursion depth. -/
def parseValue : Nat → List Char → Option (Json × List Char)
  | 0, _ => none
  | Nat.succ fuel, cs =>
    match skipWs cs with
    | [] => none
    | c :: rest =>
      if c = 'n' then (dropLit ['u', 'l', 'l'] rest).map (fun r => (Json.null, r))
      else if c = 't' then (dropLit ['r', 'u', 'e'] rest).map (fun r => (Json.bool true, r))
      else if c = 'f' then (dropLit ['a', 'l', 's', 'e'] rest).map (fun r => (Json.bool false, r))
      else if c = '"' then
        (readStringAux rest).map (fun p => (Json.str (String.mk p.1), p.2))
      else if c = '[' then
        match skipWs rest with
        | [] => (parseElemsAux fuel []).map (fun p => (Json.arr p.1, p.2))
        | c2 :: r2 =>
          if c2 = ']' then some (Json.arr [], r2)
          else (parseElemsAux fuel (c2 :: r2)).map (fun p => (Json.arr p.1, p.2))
      else if c = '{' then
        match skipWs rest with
        | [] => (parseMembersAux fuel []).map (fun p => (Json.obj p.1, p.2))
        | c2 :: r2 =>
          if c2 = '}' then some (Json.obj [], r2)
          else (parseMembersAux fuel (c2 :: r2)).map (fun p => (Json.obj p.1, p.2))
      else (parseNumber (c :: rest)).map (fun p => (Json.num p.1, p.2))

/-- Parse the non-empty element list of a JSON array, including the
closing bracket. -/
def parseElemsAux : Nat → List Char → Option (List Json × List Char)
  | 0, _ => none
  | Nat.succ fuel, cs =>
    match parseValue fuel cs with
    | none => none
    | some (v, r) =>
      match skipWs r with
      | [] => none
      | c :: r2 =>
        if c = ',' then (parseElemsAux fuel r2).map (fun p => (v :: p.1, p.2))
        else if c = ']' then some ([v], r2)
        else none

/-- Parse the non-empty member list of a JSON object, including the
closing brace. -/
def parseMembersAux : Nat → List Char → Option (List (String × Json) × List Char)
  | 0, _ => none
  | Nat.succ fuel, cs =>
    match skipWs cs with
    | [] => none
    | c :: r1 =>
      if c = '"' then
        match readStringAux r1 with
        | none => none
        | some (k, r2) =>
          match skipWs r2 with
          | [] => none
          | c2 :: r3 =>
            if c2 = ':' then
              match parseValue fuel r3 with
              | none => none
              | some (v, r4) =>
                match skipWs r4 with
                | [] => none
                | c3 :: r5 =>
                  if c3 = ',' then
                    (parseMembersAux fuel r5).map (fun p => ((String.mk k, v) :: p.1, p.2))
                  else if c3 = '}' then some ([(String.mk k, v)], r5)
                  else none
            else none
      else none

end

/-- The model of `JSON.parse`: parse a complete JSON document, requiring
that only whitespace follows the value; `none` models a thrown
`SyntaxError`. -/
def parseJson (s : String) : Option Json :=
  match parseValue (s.data.length + 1) s.data with
  | some (v, r) => if skipWs r = [] then some v else none
  | none => none

/-- The character of a decimal digit value. -/
def digitChar (d : Nat) : Char := Char.ofNat (48 + d)

/-- Decimal digits of a natural number, most significant first; `0`
prints as the single digit `0`. -/
def natDigitsM (n : Nat) : List Nat :=
  if n = 0 then [0] else (Nat.digits 10 n).reverse

/-- Digits of `|m|` padded with leading zeros to at least `e + 1` digits,
so that the integer part of the printed number is never empty. -/
def padDigits (n : JNum) : List Nat :=
  List.replicate (n.e + 1 - (natDigitsM n.m.natAbs).length) 0 ++ natDigitsM n.m.natAbs

/-- Integer-part digits of the printed number. -/
def intDigits (n : JNum) : List Nat :=
  (padDigits n).take ((padDigits n).length - n.e)

/-- Fraction-part digits of the printed number (exactly `e` of them). -/
def fracDigits (n : JNum) : List Nat :=
  (padDigits n).drop ((padDigits n).length - n.e)

/-- Exact decimal text of a `JNum`, as `JSON.stringify` prints a number:
optional minus sign, integer part without redundant leading zeros, and a
fraction part of exactly `e` digits when `e ≠ 0`. -/
def numChars (n : JNum) : List Char :=
  (if n.m < 0 then ['-'] else []) ++
    (intDigits n).map digitChar ++
    (if n.e = 0 then [] else '.' :: (fracDigits n).map digitChar)

/-- The `Coordinate` record type of both screens: a latitude/longitude
pair of JavaScript numbers. -/
structure Coordinate where
  latitude : JNum
  longitude : JNum
deriving DecidableEq

/-- The JSON value of a `Coordinate` object literal, fields in insertion
order (latitude first). -/
def coordJson (c : Coordinate) : Json :=
  Json.obj [("latitude", Json.num c.latitude), ("longitude", Json.num c.longitude)]

/-- Characters of `JSON.stringify({latitude, longitude})`. -/
def coordChars (c : Coordinate) : List Char :=
  '{' :: '"' :: 'l' :: 'a' :: 't' :: 'i' :: 't' :: 'u' :: 'd' :: 'e' :: '"' :: ':' ::
    (numChars c.latitude ++
      (',' :: '"' :: 'l' :: 'o' :: 'n' :: 'g' :: 'i' :: 't' :: 'u' :: 'd' :: 'e' :: '"' :: ':' ::
        (numChars c.longitude ++ ['}'])))

/-- The model of `JSON.stringify(coords)` in `handleSetMarker`. -/
def stringifyCoord (c : Coordinate) : String := String.mk (coordChars c)

/-! ## The screen model

State and handlers of the screen component: the in-memory marker (held
dynamically, since `JSON.parse` performs no shape validation), the
AsyncStorage cell under key `"marker"`, and the map viewport. -/

/-- JavaScript truthiness of a JSON value (`0`, `""`, `null` and `false`
are falsy). -/
def Json.truthy : Json → Bool
  | Json.null => false
  | Json.bool b => b
  | Json.num n => n.m ≠ 0
  | Json.str s => s ≠ ""
  | Json.arr _ => true
  | Json.obj _ => true

/-- JavaScript property access on a parsed JSON value: `none` models
`undefined`. Duplicate keys keep the last occurrence, as `JSON.parse`
does. -/
def getField (j : Json) (k : String) : Option Json :=
  match j with
  | Json.obj ms => (ms.reverse.find? (fun m => m.1 = k)).map Prod.snd
  | _ => none

/-- Optional chaining `m?.k`: `none` models `undefined`. -/
def optChain (m : Option Json) (k : String) : Option Json :=
  m.bind (fun j => getField j k)

/-- JavaScript `v || fallback` where `v` may be `undefined`. -/
def jsOrNum (v : Option Json) (fb : JNum) : Json :=
  match v with
  | some x => if x.truthy then x else Json.num fb
  | none => Json.num fb

/-- A map region: center coordinate plus zoom spans. The center fields
are dynamic values because they are computed from the unvalidated
in-memory marker. -/
structure Region where
  latitude : Json
  longitude : Json
  latitudeDelta : JNum
  longitudeDelta : JNum

/-- The `initialRegion` computation of both screens:
`marker?.latitude || 40.4168`, `marker?.longitude || -3.7038`, with
`0.01` deltas. -/
def initialRegion (marker : Option Json) : Region :=
  { latitude := jsOrNum (optChain marker "latitude") ⟨404168, 4⟩
    longitude := jsOrNum (optChain marker "longitude") ⟨-37038, 4⟩
    latitudeDelta := ⟨1, 2⟩
    longitudeDelta := ⟨1, 2⟩ }

/-- Result of the `loadMarker` effect run at screen mount: the marker
state it sets, the loading flag after the `finally`, the console log
entries, and any alerts shown. -/
structure LoadResult where
  marker : Option Json
  loading : Bool
  logs : List String
  alerts : List (String × String)

/-- The `loadMarker` effect: read AsyncStorage key `"marker"`; if the
result is truthy (non-null and non-empty), `JSON.parse` it and install
the parsed value; a parse error is caught and logged; `finally` clears
the loading flag. -/
def loadMarker (stored : Option String) : LoadResult :=
  match stored with
  | none => ⟨none, false, [], []⟩
  | some json =>
    if json = "" then ⟨none, false, [], []⟩
    else
      match parseJson json with
      | some parsed => ⟨some parsed, false, [], []⟩
      | none => ⟨none, false, ["Error al cargar marcador:"], []⟩

/-- Observable external calls made by a handler. -/
inductive Event where
  | requestPermission : Event
  | getPosition : Event
  | alertShown (title msg : String) : Event
  | storageSet (key val : String) : Event
  | storageRemove (key : String) : Event
  | animate (latitude longitude latitudeDelta longitudeDelta : JNum) (durationMs : Nat) : Event

/-- Screen state touched by the button handlers. -/
structure AppState where
  marker : Option Json
  storage : Option String
  region : Region

/-- The `handleSetMarker` handler: request foreground permission; on any
status other than `'granted'`, alert and return; otherwise fetch the
position, set the in-memory marker and write the serialized coordinate
to AsyncStorage. `fix` is the position the device would report. -/
def handleSetMarker (status : String) (fix : Coordinate) (st : AppState) :
    AppState × List Event :=
  if status ≠ "granted" then
    (st, [Event.requestPermission,
          Event.alertShown "Permisos denegados" "Se necesita acceso a la ubicación."])
  else
    ({ st with marker := some (coordJson fix), storage := some (stringifyCoord fix) },
     [Event.requestPermission, Event.getPosition,
      Event.storageSet "marker" (stringifyCoord fix)])

/-- The `handleRemoveMarker` handler: clear the in-memory marker and
remove the AsyncStorage record. -/
def handleRemoveMarker (st : AppState) : AppState × List Event :=
  ({ st with marker := none, storage := none }, [Event.storageRemove "marker"])

/-- The `centerMapOnUser` handler: request foreground permission; on any
status other than `'granted'`, alert and return; otherwise fetch the
position and animate the map to it with `0.01` deltas over 1000 ms. -/
def centerMapOnUser (status : String) (fix : Coordinate) (st : AppState) :
    AppState × List Event :=
  if status ≠ "granted" then
    (st, [Event.requestPermission,
          Event.alertShown "Permisos denegados" "Se necesita acceso a la ubicación."])
  else
    ({ st with region :=
        { latitude := Json.num fix.latitude, longitude := Json.num fix.longitude
          latitudeDelta := ⟨1, 2⟩, longitudeDelta := ⟨1, 2⟩ } },
     [Event.requestPermission, Event.getPosition,
      Event.animate fix.latitude fix.longitude ⟨1, 2⟩ ⟨1, 2⟩ 1000])

/-- The marker a later screen mount would observe from the storage cell:
exactly what `loadMarker` installs. -/
def decodeStored : Option String → Option Json
  | none => none
  | some s => if s = "" then none else parseJson s

/-- The in-memory marker and the persisted record agree: decoding the
storage cell yields exactly the in-memory marker. -/
def consistent (st : AppState) : Prop :=
  decodeStored st.storage = st.marker

/-- One primitive state mutation inside a handler, used to examine
intermediate states of a mutation for the write-through invariant. -/
inductive MStep where
  | setMem (v : Option Json) : MStep
  | writeStore (s : String) : MStep
  | eraseStore : MStep

/-- Apply one primitive mutation. -/
def applyStep (st : AppState) : MStep → AppState
  | MStep.setMem v => { st with marker := v }
  | MStep.writeStore s => { st with storage := some s }
  | MStep.eraseStore => { st with storage := none }

/-- Run a mutation step list. -/
def runSteps (st : AppState) (l : List MStep) : AppState :=
  l.foldl applyStep st

/-- The state-mutating steps of `handleSetMarker` on the granted path,
in program order: `setMarker(coords)` then
`AsyncStorage.setItem('marker', JSON.stringify(coords))`. -/
def setMarkerSteps (c : Coordinate) : List MStep :=
  [MStep.setMem (some (coordJson c)), MStep.writeStore (stringifyCoord c)]

/-- The state-mutating steps of `handleRemoveMarker`, in program order:
`setMarker(null)` then `AsyncStorage.removeItem('marker')`. -/
def removeMarkerSteps : List MStep :=
  [MStep.setMem none, MStep.eraseStore]

/-! ## Digit and digit-list lemmas -/

/-- The input does not begin with a decimal digit. -/
def noDigitHead : List Char → Prop
  | [] => True
  | c :: _ => ¬('0' ≤ c ∧ c ≤ '9')

theorem digitChar_spec (d : Nat) (h : d < 10) :
    ('0' ≤ digitChar d ∧ digitChar d ≤ '9') ∧ (digitChar d).toNat - 48 = d ∧
      digitChar d ≠ '-' ∧ isWs (digitChar d) = false ∧ digitChar d ≠ 'n' ∧
      digitChar d ≠ 't' ∧ digitChar d ≠ 'f' ∧ digitChar d ≠ '"' ∧
      digitChar d ≠ '[' ∧ digitChar d ≠ '{' ∧ digitChar d ≠ '.' := by
  interval_cases d <;> exact (by decide)

theorem readDigits_append (ds : List Nat) (rest : List Char)
    (hds : ∀ d ∈ ds, d < 10) (hrest : noDigitHead rest) :
    readDigits (ds.map digitChar ++ rest) = (ds, rest) := by
  induction ds with
  | nil =>
    cases rest with
    | nil => rfl
    | cons c t =>
      simp only [List.map_nil, List.nil_append, readDigits]
      simp only [noDigitHead] at hrest
      simp [hrest]
  | cons d ds ih =>
    have hd : d < 10 := hds d (by simp)
    have hspec := digitChar_spec d hd
    have htail := ih (fun x hx => hds x (List.mem_cons_of_mem _ hx))
    simp only [List.map_cons, List.cons_append, readDigits, List.append_eq]
    rw [if_pos hspec.1]
    rw [htail, hspec.2.1]

theorem ofDigitsM_nil : ofDigitsM [] = 0 := rfl

theorem foldl_digits_eq (l : List Nat) (x : Nat) :
    l.foldl (fun a d => 10 * a + d) x = x * 10 ^ l.length + ofDigitsM l := by
  induction l generalizing x with
  | nil => simp [ofDigitsM]
  | cons d l ih =>
    have h1 : ofDigitsM (d :: l) = (10 * 0 + d) * 10 ^ l.length + ofDigitsM l := ih _
    rw [List.foldl_cons, ih, h1, List.length_cons]
    ring

theorem ofDigitsM_append (a b : List Nat) :
    ofDigitsM (a ++ b) = ofDigitsM a * 10 ^ b.length + ofDigitsM b := by
  simp only [ofDigitsM, List.foldl_append]
  rw [foldl_digits_eq b (List.foldl (fun a d => 10 * a + d) 0 a)]
  rfl

theorem ofDigitsM_replicate_zero (k : Nat) : ofDigitsM (List.replicate k 0) = 0 := by
  induction k with
  | zero => rfl
  | succ k ih =>
    have h : List.replicate (k + 1) 0 = List.replicate k 0 ++ [0] := by
      rw [List.replicate_succ']
    rw [h, ofDigitsM_append, ih]
    rfl

theorem ofDigitsM_reverse (l : List Nat) : ofDigitsM l.reverse = Nat.ofDigits 10 l := by
  induction l with
  | nil => rfl
  | cons d l ih =>
    rw [List.reverse_cons, ofDigitsM_append, ih, Nat.ofDigits_cons]
    simp [ofDigitsM]
    ring

theorem ofDigitsM_natDigitsM (n : Nat) : ofDigitsM (natDigitsM n) = n := by
  by_cases h : n = 0
  · subst h; rfl
  · rw [natDigitsM, if_neg h, ofDigitsM_reverse, Nat.ofDigits_digits]

theorem natDigitsM_ne_nil (n : Nat) : natDigitsM n ≠ [] := by
  by_cases h : n = 0
  · subst h; simp [natDigitsM]
  · rw [natDigitsM, if_neg h]
    simp [Nat.digits_ne_nil_iff_ne_zero.mpr h]

theorem natDigitsM_lt (n : Nat) : ∀ d ∈ natDigitsM n, d < 10 := by
  intro d hd
  by_cases h : n = 0
  · subst h; simp [natDigitsM] at hd; omega
  · rw [natDigitsM, if_neg h, List.mem_reverse] at hd
    exact Nat.digits_lt_base (by norm_num) hd

theorem natDigitsM_head_ne_zero (n : Nat) (h : n ≠ 0) :
    (natDigitsM n).head? ≠ some 0 := by
  rw [natDigitsM, if_neg h, List.head?_reverse]
  have hnil : Nat.digits 10 n ≠ [] := Nat.digits_ne_nil_iff_ne_zero.mpr h
  rw [List.getLast?_eq_getLast _ hnil]
  intro hc
  exact Nat.getLast_digit_ne_zero 10 h (Option.some_injective _ hc)

/-! ## Decimal printing: structure of `numChars` -/

theorem padDigits_length (n : JNum) :
    (padDigits n).length = n.e + 1 - (natDigitsM n.m.natAbs).length +
      (natDigitsM n.m.natAbs).length := by
  simp [padDigits]

theorem padDigits_length_ge (n : JNum) : n.e + 1 ≤ (padDigits n).length := by
  rw [padDigits_length]
  have h1 : 1 ≤ (natDigitsM n.m.natAbs).length :=
    List.length_pos.mpr (natDigitsM_ne_nil _)
  omega

theorem padDigits_lt (n : JNum) : ∀ d ∈ padDigits n, d < 10 := by
  intro d hd
  rw [padDigits, List.mem_append] at hd
  rcases hd with hd | hd
  · rw [List.eq_of_mem_replicate hd]; omega
  · exact natDigitsM_lt _ d hd

theorem ofDigitsM_padDigits (n : JNum) : ofDigitsM (padDigits n) = n.m.natAbs := by
  rw [padDigits, ofDigitsM_append, ofDigitsM_replicate_zero, ofDigitsM_natDigitsM]
  ring

theorem int_frac_append (n : JNum) : intDigits n ++ fracDigits n = padDigits n :=
  List.take_append_drop _ _

theorem intDigits_length (n : JNum) :
    (intDigits n).length = (padDigits n).length - n.e := by
  have h := padDigits_length_ge n
  simp only [intDigits, List.length_take]
  omega

theorem fracDigits_length (n : JNum) : (fracDigits n).length = n.e := by
  have h := padDigits_length_ge n
  simp only [fracDigits, List.length_drop]
  omega

theorem intDigits_ne_nil (n : JNum) : intDigits n ≠ [] := by
  have h := padDigits_length_ge n
  have hlen := intDigits_length n
  intro hc
  rw [hc, List.length_nil] at hlen
  omega

theorem intDigits_lt (n : JNum) : ∀ d ∈ intDigits n, d < 10 := fun d hd =>
  padDigits_lt n d (List.mem_of_mem_take hd)

theorem fracDigits_lt (n : JNum) : ∀ d ∈ fracDigits n, d < 10 := fun d hd =>
  padDigits_lt n d (List.mem_of_mem_drop hd)

theorem intDigits_value (n : JNum) :
    ofDigitsM (intDigits n) * 10 ^ n.e + ofDigitsM (fracDigits n) = n.m.natAbs := by
  have h := ofDigitsM_append (intDigits n) (fracDigits n)
  rw [int_frac_append, ofDigitsM_padDigits, fracDigits_length] at h
  omega

theorem head?_take_of_pos {α : Type} (l : List α) (k : Nat) (hk : 0 < k) :
    (l.take k).head? = l.head? := by
  cases l with
  | nil => simp
  | cons c t =>
    cases k with
    | zero => omega
    | succ j => simp [List.take]

theorem intDigits_ok (n : JNum) :
    ¬(2 ≤ (intDigits n).length ∧ (intDigits n).head? = some 0) := by
  rintro ⟨hlen, hhead⟩
  have hpad := padDigits_length n
  have hil := intDigits_length n
  have h1 : 1 ≤ (natDigitsM n.m.natAbs).length :=
    List.length_pos.mpr (natDigitsM_ne_nil _)
  -- the integer part has at least two digits only when |m| has more
  -- digits than the fraction needs, so no padding happened
  have hL0 : n.e + 2 ≤ (natDigitsM n.m.natAbs).length := by omega
  have hnopad : padDigits n = natDigitsM n.m.natAbs := by
    rw [padDigits]
    have : n.e + 1 - (natDigitsM n.m.natAbs).length = 0 := by omega
    rw [this]
    rfl
  have hne : n.m.natAbs ≠ 0 := by
    intro hc
    rw [hc] at hL0
    simp [natDigitsM] at hL0
  have := natDigitsM_head_ne_zero n.m.natAbs hne
  rw [intDigits, hnopad, head?_take_of_pos _ _ (by omega)] at hhead
  exact this hhead

/-! ## Number round-trip -/

/-- The input does not continue a number literal: it is empty or starts
with a character that is not a digit, a decimal point or an exponent
marker. -/
def numOkHead : List Char → Prop
  | [] => True
  | c :: _ => ¬('0' ≤ c ∧ c ≤ '9') ∧ c ≠ '.' ∧ c ≠ 'e' ∧ c ≠ 'E'

theorem numOkHead.noDigit {rest : List Char} (h : numOkHead rest) :
    noDigitHead rest := by
  cases rest with
  | nil => trivial
  | cons c t => exact h.1

theorem finishNumber_done (neg : Bool) (ids fds : List Nat) (rest : List Char)
    (h : numOkHead rest) :
    finishNumber neg ids fds rest =
      some (⟨if neg then -((ofDigitsM ids * 10 ^ fds.length + ofDigitsM fds : Nat) : Int)
             else ((ofDigitsM ids * 10 ^ fds.length + ofDigitsM fds : Nat) : Int),
             fds.length⟩, rest) := by
  cases rest with
  | nil => rfl
  | cons c t =>
    simp only [numOkHead] at h
    have hc : ¬(c = 'e' ∨ c = 'E') := by
      rintro (rfl | rfl)
      · exact h.2.2.1 rfl
      · exact h.2.2.2 rfl
    simp only [finishNumber]
    rw [if_neg hc]

theorem fracAndFinish_no_dot (neg : Bool) (ids : List Nat) (rest : List Char)
    (h : numOkHead rest) :
    fracAndFinish neg ids rest = finishNumber neg ids [] rest := by
  cases rest with
  | nil => rfl
  | cons c t =>
    simp only [fracAndFinish]
    rw [if_neg h.2.1]

theorem parseNumTail_numChars (n : JNum) (neg : Bool) (rest : List Char)
    (h : numOkHead rest) :
    parseNumTail neg ((intDigits n).map digitChar ++
        ((if n.e = 0 then [] else '.' :: (fracDigits n).map digitChar) ++ rest)) =
      some (⟨if neg then -(n.m.natAbs : Int) else (n.m.natAbs : Int), n.e⟩, rest) := by
  have hvalue := intDigits_value n
  have hfl := fracDigits_length n
  have hok := intDigits_ok n
  have hil := intDigits_lt n
  have hfllt := fracDigits_lt n
  have hin := intDigits_ne_nil n
  generalize hI : intDigits n = I at hvalue hok hil hin ⊢
  generalize hF : fracDigits n = F at hvalue hfl hfllt ⊢
  obtain ⟨i0, ip, rfl⟩ : ∃ a l, I = a :: l := by
    cases I with
    | nil => exact absurd rfl hin
    | cons a l => exact ⟨a, l, rfl⟩
  by_cases he : n.e = 0
  · -- no fraction part
    obtain rfl : F = [] := List.length_eq_zero.mp (by rw [hfl, he])
    rw [if_pos he, List.nil_append]
    rw [parseNumTail, readDigits_append _ _ hil h.noDigit]
    show (if 2 ≤ (i0 :: ip).length ∧ (i0 :: ip).head? = some 0 then none
      else fracAndFinish neg (i0 :: ip) rest) = _
    rw [if_neg hok, fracAndFinish_no_dot _ _ _ h, finishNumber_done _ _ _ _ h]
    rw [he, pow_zero, mul_one, ofDigitsM_nil, add_zero] at hvalue
    simp only [List.length_nil, ofDigitsM_nil, pow_zero, mul_one, add_zero]
    rw [hvalue, he]
  · -- with a fraction part
    rw [if_neg he, List.cons_append]
    have hdot : noDigitHead ('.' :: (F.map digitChar ++ rest)) := by
      simp [noDigitHead]
    rw [parseNumTail, readDigits_append _ _ hil hdot]
    show (if 2 ≤ (i0 :: ip).length ∧ (i0 :: ip).head? = some 0 then none
      else fracAndFinish neg (i0 :: ip) ('.' :: (F.map digitChar ++ rest))) = _
    rw [if_neg hok]
    have hfrd : readDigits (F.map digitChar ++ rest) = (F, rest) :=
      readDigits_append _ _ hfllt h.noDigit
    obtain ⟨f0, fp, rfl⟩ : ∃ a l, F = a :: l := by
      cases F with
      | nil => rw [List.length_nil] at hfl; omega
      | cons a l => exact ⟨a, l, rfl⟩
    simp only [fracAndFinish, hfrd, reduceIte, if_true]
    show finishNumber neg (i0 :: ip) (f0 :: fp) rest = _
    rw [finishNumber_done _ _ _ _ h]
    rw [hfl, hvalue]

theorem numChars_eq (n : JNum) :
    numChars n = (if n.m < 0 then ['-'] else []) ++
      ((intDigits n).map digitChar ++
        (if n.e = 0 then [] else '.' :: (fracDigits n).map digitChar)) := by
  rw [numChars, List.append_assoc]

theorem parseNumber_numChars (n : JNum) (rest : List Char) (h : numOkHead rest) :
    parseNumber (numChars n ++ rest) = some (n, rest) := by
  have htail := parseNumTail_numChars n (decide (n.m < 0)) rest h
  by_cases hm : n.m < 0
  · rw [numChars_eq, if_pos hm]
    simp only [List.cons_append, List.nil_append, List.append_assoc]
    rw [parseNumber]
    rw [if_pos rfl]
    rw [decide_eq_true hm] at htail
    rw [htail]
    have hv : -(n.m.natAbs : Int) = n.m := by omega
    rw [hv]
    rfl
  · rw [numChars_eq, if_neg hm]
    obtain ⟨i0, ip, hip⟩ : ∃ a l, intDigits n = a :: l := by
      cases hi : intDigits n with
      | nil => exact absurd hi (intDigits_ne_nil n)
      | cons a l => exact ⟨a, l, rfl⟩
    have hd : i0 < 10 := intDigits_lt n i0 (by rw [hip]; simp)
    simp only [List.nil_append, hip, List.map_cons, List.cons_append, List.append_assoc]
    rw [parseNumber]
    rw [if_neg (digitChar_spec i0 hd).2.2.1]
    rw [decide_eq_false hm] at htail
    rw [hip] at htail
    simp only [List.map_cons, List.cons_append, List.append_assoc] at htail
    rw [htail]
    have hv : (n.m.natAbs : Int) = n.m := by omega
    rw [hv]
    rfl

/-! ## Coordinate object round-trip -/

theorem skipWs_not_ws {c : Char} (t : List Char) (h : isWs c = false) :
    skipWs (c :: t) = c :: t := by
  simp [skipWs, h]

theorem numChars_head (n : JNum) :
    ∃ c t, numChars n = c :: t ∧ isWs c = false ∧ c ≠ 'n' ∧ c ≠ 't' ∧ c ≠ 'f' ∧
      c ≠ '"' ∧ c ≠ '[' ∧ c ≠ '{' := by
  by_cases hm : n.m < 0
  · refine ⟨'-', (intDigits n).map digitChar ++
      (if n.e = 0 then [] else '.' :: (fracDigits n).map digitChar), ?_, by decide,
      by decide, by decide, by decide, by decide, by decide, by decide⟩
    rw [numChars_eq, if_pos hm]
    rfl
  · obtain ⟨i0, ip, hip⟩ : ∃ a l, intDigits n = a :: l := by
      cases hi : intDigits n with
      | nil => exact absurd hi (intDigits_ne_nil n)
      | cons a l => exact ⟨a, l, rfl⟩
    have hd : i0 < 10 := intDigits_lt n i0 (by rw [hip]; simp)
    have hspec := digitChar_spec i0 hd
    refine ⟨digitChar i0, ip.map digitChar ++
      (if n.e = 0 then [] else '.' :: (fracDigits n).map digitChar), ?_,
      hspec.2.2.2.1, hspec.2.2.2.2.1, hspec.2.2.2.2.2.1, hspec.2.2.2.2.2.2.1,
      hspec.2.2.2.2.2.2.2.1, hspec.2.2.2.2.2.2.2.2.1, hspec.2.2.2.2.2.2.2.2.2.1⟩
    rw [numChars_eq, if_neg hm, List.nil_append, hip, List.map_cons, List.cons_append]

theorem parseValue_numChars (fuel : Nat) (x : JNum) (rest : List Char)
    (h : numOkHead rest) :
    parseValue (fuel + 1) (numChars x ++ rest) = some (Json.num x, rest) := by
  obtain ⟨c, t, hct, hws, hn, ht, hf, hq, hbr, hbc⟩ := numChars_head x
  rw [hct, List.cons_append, parseValue, skipWs_not_ws _ hws]
  show (if c = 'n' then _ else if c = 't' then _ else if c = 'f' then _
    else if c = '"' then _ else if c = '[' then _ else if c = '{' then _
    else (parseNumber (c :: (t ++ rest))).map (fun p => (Json.num p.1, p.2))) = _
  rw [if_neg hn, if_neg ht, if_neg hf, if_neg hq, if_neg hbr, if_neg hbc]
  rw [← List.cons_append, ← hct, parseNumber_numChars x rest h]
  rfl

theorem readStringAux_plain (c : Char) (t : List Char) (h1 : c ≠ '"') (h2 : c ≠ '\\')
    (h3 : ¬c.toNat < 32) :
    readStringAux (c :: t) = (readStringAux t).map (fun p => (c :: p.1, p.2)) := by
  rw [readStringAux.eq_def]
  simp [h1, h2, h3]

theorem readStringAux_quote (t : List Char) : readStringAux ('"' :: t) = some ([], t) := by
  rw [readStringAux.eq_def]
  simp

theorem readStringAux_latitude (t : List Char) :
    readStringAux ('l' :: 'a' :: 't' :: 'i' :: 't' :: 'u' :: 'd' :: 'e' :: '"' :: t) =
      some (['l', 'a', 't', 'i', 't', 'u', 'd', 'e'], t) := by
  rw [readStringAux_plain 'l' _ (by decide) (by decide) (by decide),
    readStringAux_plain 'a' _ (by decide) (by decide) (by decide),
    readStringAux_plain 't' _ (by decide) (by decide) (by decide),
    readStringAux_plain 'i' _ (by decide) (by decide) (by decide),
    readStringAux_plain 't' _ (by decide) (by decide) (by decide),
    readStringAux_plain 'u' _ (by decide) (by decide) (by decide),
    readStringAux_plain 'd' _ (by decide) (by decide) (by decide),
    readStringAux_plain 'e' _ (by decide) (by decide) (by decide),
    readStringAux_quote]
  rfl

theorem readStringAux_longitude (t : List Char) :
    readStringAux ('l' :: 'o' :: 'n' :: 'g' :: 'i' :: 't' :: 'u' :: 'd' :: 'e' :: '"' :: t) =
      some (['l', 'o', 'n', 'g', 'i', 't', 'u', 'd', 'e'], t) := by
  rw [readStringAux_plain 'l' _ (by decide) (by decide) (by decide),
    readStringAux_plain 'o' _ (by decide) (by decide) (by decide),
    readStringAux_plain 'n' _ (by decide) (by decide) (by decide),
    readStringAux_plain 'g' _ (by decide) (by decide) (by decide),
    readStringAux_plain 'i' _ (by decide) (by decide) (by decide),
    readStringAux_plain 't' _ (by decide) (by decide) (by decide),
    readStringAux_plain 'u' _ (by decide) (by decide) (by decide),
    readStringAux_plain 'd' _ (by decide) (by decide) (by decide),
    readStringAux_plain 'e' _ (by decide) (by decide) (by decide),
    readStringAux_quote]
  rfl

theorem mk_latitude : String.mk ['l', 'a', 't', 'i', 't', 'u', 'd', 'e'] = "latitude" := rfl

theorem mk_longitude : String.mk ['l', 'o', 'n', 'g', 'i', 't', 'u', 'd', 'e'] = "longitude" := rfl

theorem skipWs_quote (t : List Char) : skipWs ('"' :: t) = '"' :: t :=
  skipWs_not_ws t (by rfl)

theorem skipWs_colon (t : List Char) : skipWs (':' :: t) = ':' :: t :=
  skipWs_not_ws t (by rfl)

theorem skipWs_comma (t : List Char) : skipWs (',' :: t) = ',' :: t :=
  skipWs_not_ws t (by rfl)

theorem skipWs_rbrace (t : List Char) : skipWs ('}' :: t) = '}' :: t :=
  skipWs_not_ws t (by rfl)

theorem parseMembersAux_coord (fuel : Nat) (la lo : JNum) (rest : List Char) :
    parseMembersAux (fuel + 3)
      ('"' :: 'l' :: 'a' :: 't' :: 'i' :: 't' :: 'u' :: 'd' :: 'e' :: '"' :: ':' ::
        (numChars la ++
          (',' :: '"' :: 'l' :: 'o' :: 'n' :: 'g' :: 'i' :: 't' :: 'u' :: 'd' :: 'e' :: '"' :: ':' ::
            (numChars lo ++ ('}' :: rest))))) =
      some ([("latitude", Json.num la), ("longitude", Json.num lo)], rest) := by
  have h1 : parseValue (fuel + 2)
      (numChars la ++
        (',' :: '"' :: 'l' :: 'o' :: 'n' :: 'g' :: 'i' :: 't' :: 'u' :: 'd' :: 'e' :: '"' :: ':' ::
          (numChars lo ++ ('}' :: rest)))) =
      some (Json.num la,
        ',' :: '"' :: 'l' :: 'o' :: 'n' :: 'g' :: 'i' :: 't' :: 'u' :: 'd' :: 'e' :: '"' :: ':' ::
          (numChars lo ++ ('}' :: rest))) :=
    parseValue_numChars (fuel + 1) la _ ⟨by decide, by decide, by decide, by decide⟩
  have h2 : parseValue (fuel + 1) (numChars lo ++ ('}' :: rest)) =
      some (Json.num lo, '}' :: rest) :=
    parseValue_numChars fuel lo _ ⟨by decide, by decide, by decide, by decide⟩
  simp [parseMembersAux, skipWs_quote, skipWs_colon, skipWs_comma, skipWs_rbrace,
    readStringAux_latitude, readStringAux_longitude, h1, h2, mk_latitude, mk_longitude]

theorem parseValue_coordChars (fuel : Nat) (c : Coordinate) (rest : List Char) :
    parseValue (fuel + 4) (coordChars c ++ rest) = some (coordJson c, rest) := by
  have hm := parseMembersAux_coord fuel c.latitude c.longitude rest
  have hshape : coordChars c ++ rest =
      '{' :: ('"' :: 'l' :: 'a' :: 't' :: 'i' :: 't' :: 'u' :: 'd' :: 'e' :: '"' :: ':' ::
        (numChars c.latitude ++
          (',' :: '"' :: 'l' :: 'o' :: 'n' :: 'g' :: 'i' :: 't' :: 'u' :: 'd' :: 'e' :: '"' :: ':' ::
            (numChars c.longitude ++ ('}' :: rest))))) := by
    simp [coordChars, List.cons_append, List.append_assoc]
  rw [hshape, parseValue, skipWs_not_ws _ (by rfl)]
  show (if '{' = 'n' then _ else if '{' = 't' then _ else if '{' = 'f' then _
    else if '{' = '"' then _ else if '{' = '[' then _
    else if '{' = '{' then
      (match skipWs ('"' :: 'l' :: 'a' :: 't' :: 'i' :: 't' :: 'u' :: 'd' :: 'e' :: '"' :: ':' ::
          (numChars c.latitude ++
            (',' :: '"' :: 'l' :: 'o' :: 'n' :: 'g' :: 'i' :: 't' :: 'u' :: 'd' :: 'e' :: '"' :: ':' ::
              (numChars c.longitude ++ ('}' :: rest))))) with
       | [] => (parseMembersAux (fuel + 3) []).map
           (fun (p : List (String × Json) × List Char) => (Json.obj p.1, p.2))
       | c2 :: r2 =>
         if c2 = '}' then some (Json.obj [], r2)
         else (parseMembersAux (fuel + 3) (c2 :: r2)).map
           (fun (p : List (String × Json) × List Char) => (Json.obj p.1, p.2)))
    else _) = _
  rw [if_neg (by decide), if_neg (by decide), if_neg (by decide), if_neg (by decide),
    if_neg (by decide), if_pos rfl, skipWs_quote]
  simp [hm, coordJson]

theorem data_mk (l : List Char) : (String.mk l).data = l := rfl

theorem parseJson_stringifyCoord (c : Coordinate) :
    parseJson (stringifyCoord c) = some (coordJson c) := by
  have hlen : 3 ≤ (coordChars c).length := by
    simp only [coordChars, List.length_cons, List.length_append]
    omega
  have heq : (coordChars c).length + 1 = ((coordChars c).length - 3) + 4 := by omega
  have h4 := parseValue_coordChars ((coordChars c).length - 3) c []
  rw [List.append_nil] at h4
  rw [parseJson, stringifyCoord, data_mk, heq, h4]
  rfl

/-! ## Storage decode lemmas -/

theorem stringifyCoord_ne_empty (c : Coordinate) : stringifyCoord c ≠ "" := by
  rw [stringifyCoord]
  intro hc
  have h := congrArg String.data hc
  rw [data_mk, coordChars] at h
  exact List.noConfusion h

theorem decodeStored_stringifyCoord (c : Coordinate) :
    decodeStored (some (stringifyCoord c)) = some (coordJson c) := by
  simp only [decodeStored]
  rw [if_neg (stringifyCoord_ne_empty c), parseJson_stringifyCoord]

theorem loadMarker_marker_decode (stored : Option String) :
    (loadMarker stored).marker = decodeStored stored := by
  cases stored with
  | none => rfl
  | some s =>
    simp only [loadMarker, decodeStored]
    by_cases he : s = ""
    · simp [he]
    · simp only [if_neg he]
      cases parseJson s <;> rfl

/-! ## Claim theorems -/

/-- C1: for every position fix `(lat, lon)`, when the save operation runs
with permission status `'granted'` and the fix succeeds, the in-memory
marker afterwards is the coordinate object for `(lat, lon)` and the
record persisted under key `"marker"` decodes back to exactly that
coordinate object. -/
theorem save_sets_marker_and_persists (fix : Coordinate) (st : AppState) :
    (handleSetMarker "granted" fix st).1.marker = some (coordJson fix) ∧
      decodeStored (handleSetMarker "granted" fix st).1.storage = some (coordJson fix) := by
  constructor
  · simp [handleSetMarker]
  · have h : (handleSetMarker "granted" fix st).1.storage = some (stringifyCoord fix) := by
      simp [handleSetMarker]
    rw [h, decodeStored_stringifyCoord]

/-- C2 counterexample: with the record for latitude `0`, longitude `20`
stored, initialization installs the marker `(0, 20)`, yet the initial
viewport latitude is the fallback `40.4168` rather than the stored `0`,
because `marker?.latitude || 40.4168` treats the number `0` as falsy.
This refutes the claim that the viewport is centered at `(lat, lon)` and
that the fallback is used only when no marker exists. -/
theorem initialRegion_zero_latitude_falls_back :
    (loadMarker (some (stringifyCoord ⟨⟨0, 0⟩, ⟨20, 0⟩⟩))).marker =
        some (coordJson ⟨⟨0, 0⟩, ⟨20, 0⟩⟩) ∧
      (initialRegion (loadMarker (some (stringifyCoord ⟨⟨0, 0⟩, ⟨20, 0⟩⟩))).marker).latitude =
        Json.num ⟨404168, 4⟩ ∧
      Json.num (⟨404168, 4⟩ : JNum) ≠ Json.num (⟨0, 0⟩ : JNum) := by
  have hload : (loadMarker (some (stringifyCoord ⟨⟨0, 0⟩, ⟨20, 0⟩⟩))).marker =
      some (coordJson ⟨⟨0, 0⟩, ⟨20, 0⟩⟩) := by
    rw [loadMarker_marker_decode, decodeStored_stringifyCoord]
  refine ⟨hload, ?_, ?_⟩
  · rw [hload]
    simp [initialRegion, optChain, getField, coordJson, jsOrNum, Json.truthy]
  · intro h
    injection h with h'
    exact absurd h' (by decide)

/-- C2 amended: for every persisted coordinate `(lat, lon)` whose
components are both nonzero, initializing the screen with that record
stored installs the marker `(lat, lon)` and centers the initial viewport
at `(lat, lon)` with `0.01` deltas; for a zero component the `||`
fallback kicks in and that viewport component is taken from the fallback
center `(40.4168, -3.7038)` even though the marker exists. -/
theorem load_initialRegion_nonzero (lat lon : JNum) (hla : lat.m ≠ 0) (hlo : lon.m ≠ 0) :
    (loadMarker (some (stringifyCoord ⟨lat, lon⟩))).marker = some (coordJson ⟨lat, lon⟩) ∧
      initialRegion (loadMarker (some (stringifyCoord ⟨lat, lon⟩))).marker =
        { latitude := Json.num lat, longitude := Json.num lon,
          latitudeDelta := ⟨1, 2⟩, longitudeDelta := ⟨1, 2⟩ } := by
  have hload : (loadMarker (some (stringifyCoord ⟨lat, lon⟩))).marker =
      some (coordJson ⟨lat, lon⟩) := by
    rw [loadMarker_marker_decode, decodeStored_stringifyCoord]
  refine ⟨hload, ?_⟩
  rw [hload]
  simp [initialRegion, optChain, getField, coordJson, jsOrNum, Json.truthy, hla, hlo]

/-- C2 amended, witness at the spec's example `(10, 20)`. -/
theorem load_initialRegion_nonzero_witness :
    ((⟨10, 0⟩ : JNum).m ≠ 0 ∧ (⟨20, 0⟩ : JNum).m ≠ 0) ∧
      ((loadMarker (some (stringifyCoord ⟨⟨10, 0⟩, ⟨20, 0⟩⟩))).marker =
          some (coordJson ⟨⟨10, 0⟩, ⟨20, 0⟩⟩) ∧
        initialRegion (loadMarker (some (stringifyCoord ⟨⟨10, 0⟩, ⟨20, 0⟩⟩))).marker =
          { latitude := Json.num ⟨10, 0⟩, longitude := Json.num ⟨20, 0⟩,
            latitudeDelta := ⟨1, 2⟩, longitudeDelta := ⟨1, 2⟩ }) :=
  ⟨⟨by decide, by decide⟩, load_initialRegion_nonzero ⟨10, 0⟩ ⟨20, 0⟩ (by decide) (by decide)⟩

/-- C3: with no record stored under key `"marker"`, initialization
installs no marker and the initial viewport is centered on the fallback
`(40.4168, -3.7038)` with latitude/longitude deltas of `0.01`. -/
theorem no_record_default_region :
    (loadMarker none).marker = none ∧
      initialRegion (loadMarker none).marker =
        { latitude := Json.num ⟨404168, 4⟩, longitude := Json.num ⟨-37038, 4⟩,
          latitudeDelta := ⟨1, 2⟩, longitudeDelta := ⟨1, 2⟩ } :=
  ⟨rfl, rfl⟩

/-- C4: from every state in which a marker exists, the remove operation
leaves the in-memory marker empty and the persisted record absent, so a
subsequent screen initialization yields no marker. -/
theorem remove_clears (st : AppState) (j : Json) (h : st.marker = some j) :
    (handleRemoveMarker st).1.marker = none ∧
      (handleRemoveMarker st).1.storage = none ∧
      (loadMarker (handleRemoveMarker st).1.storage).marker = none :=
  ⟨rfl, rfl, rfl⟩

/-- C4 witness: removing from a state holding a marker. -/
theorem remove_clears_witness :
    (AppState.mk (some Json.null) none (initialRegion none)).marker = some Json.null ∧
      ((handleRemoveMarker (AppState.mk (some Json.null) none (initialRegion none))).1.marker
          = none ∧
        (handleRemoveMarker (AppState.mk (some Json.null) none (initialRegion none))).1.storage
          = none ∧
        (loadMarker (handleRemoveMarker
          (AppState.mk (some Json.null) none (initialRegion none))).1.storage).marker = none) :=
  ⟨rfl, remove_clears _ Json.null rfl⟩

/-- C5: for every prior state and every permission status other than
`'granted'`, both the save operation and the center-on-me operation
leave the whole state (marker, persisted record and viewport) unchanged,
show the permission alert, request no position fix and perform no
storage write. -/
theorem denied_permission_aborts (status : String) (h : status ≠ "granted")
    (fix : Coordinate) (st : AppState) :
    (handleSetMarker status fix st).1 = st ∧
      (centerMapOnUser status fix st).1 = st ∧
      Event.alertShown "Permisos denegados" "Se necesita acceso a la ubicación." ∈
        (handleSetMarker status fix st).2 ∧
      Event.alertShown "Permisos denegados" "Se necesita acceso a la ubicación." ∈
        (centerMapOnUser status fix st).2 ∧
      Event.getPosition ∉ (handleSetMarker status fix st).2 ∧
      Event.getPosition ∉ (centerMapOnUser status fix st).2 ∧
      (∀ k v, Event.storageSet k v ∉ (handleSetMarker status fix st).2) ∧
      (∀ k v, Event.storageSet k v ∉ (centerMapOnUser status fix st).2) := by
  rw [handleSetMarker, if_pos h, centerMapOnUser, if_pos h]
  refine ⟨rfl, rfl, by simp, by simp, by simp, by simp, by simp, by simp⟩

/-- C5 witness at status `'denied'`. -/
theorem denied_permission_aborts_witness :
    ("denied" : String) ≠ "granted" ∧
      ((handleSetMarker "denied" ⟨⟨1, 0⟩, ⟨2, 0⟩⟩
          (AppState.mk none none (initialRegion none))).1 =
        AppState.mk none none (initialRegion none) ∧
      (centerMapOnUser "denied" ⟨⟨1, 0⟩, ⟨2, 0⟩⟩
          (AppState.mk none none (initialRegion none))).1 =
        AppState.mk none none (initialRegion none) ∧
      Event.alertShown "Permisos denegados" "Se necesita acceso a la ubicación." ∈
        (handleSetMarker "denied" ⟨⟨1, 0⟩, ⟨2, 0⟩⟩
          (AppState.mk none none (initialRegion none))).2 ∧
      Event.alertShown "Permisos denegados" "Se necesita acceso a la ubicación." ∈
        (centerMapOnUser "denied" ⟨⟨1, 0⟩, ⟨2, 0⟩⟩
          (AppState.mk none none (initialRegion none))).2 ∧
      Event.getPosition ∉ (handleSetMarker "denied" ⟨⟨1, 0⟩, ⟨2, 0⟩⟩
          (AppState.mk none none (initialRegion none))).2 ∧
      Event.getPosition ∉ (centerMapOnUser "denied" ⟨⟨1, 0⟩, ⟨2, 0⟩⟩
          (AppState.mk none none (initialRegion none))).2 ∧
      (∀ k v, Event.storageSet k v ∉ (handleSetMarker "denied" ⟨⟨1, 0⟩, ⟨2, 0⟩⟩
          (AppState.mk none none (initialRegion none))).2) ∧
      (∀ k v, Event.storageSet k v ∉ (centerMapOnUser "denied" ⟨⟨1, 0⟩, ⟨2, 0⟩⟩
          (AppState.mk none none (initialRegion none))).2)) :=
  ⟨by decide, denied_permission_aborts "denied" (by decide) _ _⟩

/-- C6 counterexample: the stored empty string fails to parse
(`JSON.parse("")` throws), and loading it does yield no marker, but
nothing is logged, because the truthiness guard `if (json)` skips the
parse entirely; this refutes the claim that every parse failure is
logged. -/
theorem load_empty_string_unlogged :
    parseJson "" = none ∧ (loadMarker (some "")).marker = none ∧
      (loadMarker (some "")).logs = [] :=
  ⟨rfl, rfl, rfl⟩

/-- C6 amended: for every stored string that fails to parse, loading
yields the same marker as when no record is stored, initialization
completes (the loading flag ends false), and no alert is surfaced; the
failure is logged exactly when the stored string is non-empty (the empty
string is skipped by the truthiness guard without logging). -/
theorem load_parse_failure_as_absent (s : String) (h : parseJson s = none) :
    (loadMarker (some s)).marker = (loadMarker none).marker ∧
      (loadMarker (some s)).loading = false ∧
      (loadMarker (some s)).alerts = [] ∧
      (s ≠ "" → (loadMarker (some s)).logs = ["Error al cargar marcador:"]) := by
  by_cases he : s = ""
  · subst he
    exact ⟨rfl, rfl, rfl, fun hc => absurd rfl hc⟩
  · simp [loadMarker, he, h]

/-- C6 amended, witness at an unterminated one-character document (a lone opening brace). -/
theorem load_parse_failure_as_absent_witness :
    parseJson "\x7b" = none ∧
      ((loadMarker (some "\x7b")).marker = (loadMarker none).marker ∧
        (loadMarker (some "\x7b")).loading = false ∧
        (loadMarker (some "\x7b")).alerts = [] ∧
        (("\x7b" : String) ≠ "" → (loadMarker (some "\x7b")).logs = ["Error al cargar marcador:"])) :=
  ⟨rfl, load_parse_failure_as_absent "\x7b" rfl⟩

/-- C7: for every coordinate, saving it (serializing and writing under
key `"marker"`) and then loading returns exactly that coordinate, and
saving the same coordinate again leaves the stored record unchanged and
still loads back to the same coordinate. -/
theorem save_load_exact_roundtrip (c : Coordinate) (st : AppState) :
    (loadMarker (handleSetMarker "granted" c st).1.storage).marker = some (coordJson c) ∧
      (handleSetMarker "granted" c (handleSetMarker "granted" c st).1).1.storage =
        (handleSetMarker "granted" c st).1.storage ∧
      (loadMarker
        (handleSetMarker "granted" c (handleSetMarker "granted" c st).1).1.storage).marker =
        some (coordJson c) := by
  have hs : ∀ st' : AppState, (handleSetMarker "granted" c st').1.storage =
      some (stringifyCoord c) := by
    intro st'
    simp [handleSetMarker]
  refine ⟨?_, ?_, ?_⟩
  · rw [hs, loadMarker_marker_decode, decodeStored_stringifyCoord]
  · rw [hs, hs]
  · rw [hs, loadMarker_marker_decode, decodeStored_stringifyCoord]

/-- C8: starting from any state whose in-memory and persisted markers
agree, both mutations (set and clear) restore agreement at completion,
and an intermediate state of either mutation can disagree only strictly
between the in-memory update and the write-through to storage. -/
theorem mutation_write_through (c : Coordinate) (st : AppState) (h : consistent st) :
    consistent (runSteps st (setMarkerSteps c)) ∧
      consistent (runSteps st removeMarkerSteps) ∧
      (∀ p q, p ++ q = setMarkerSteps c → ¬consistent (runSteps st p) →
        p = [MStep.setMem (some (coordJson c))]) ∧
      (∀ p q, p ++ q = removeMarkerSteps → ¬consistent (runSteps st p) →
        p = [MStep.setMem none]) := by
  have hset : consistent (runSteps st (setMarkerSteps c)) := by
    show decodeStored (some (stringifyCoord c)) = some (coordJson c)
    exact decodeStored_stringifyCoord c
  have hrem : consistent (runSteps st removeMarkerSteps) := rfl
  refine ⟨hset, hrem, ?_, ?_⟩
  · intro p q hpq hnc
    simp only [setMarkerSteps] at hpq
    cases p with
    | nil => exact absurd h hnc
    | cons x p' =>
      cases p' with
      | nil =>
        rw [List.cons_append, List.nil_append] at hpq
        injection hpq with h1 h2
        rw [h1]
      | cons y p'' =>
        cases p'' with
        | nil =>
          rw [List.cons_append, List.cons_append, List.nil_append] at hpq
          injection hpq with h1 h2
          injection h2 with h2 h3
          subst h1
          subst h2
          exact absurd hset hnc
        | cons z p''' =>
          have hlen := congrArg List.length hpq
          simp only [List.length_append, List.length_cons, List.length_nil] at hlen
          omega
  · intro p q hpq hnc
    simp only [removeMarkerSteps] at hpq
    cases p with
    | nil => exact absurd h hnc
    | cons x p' =>
      cases p' with
      | nil =>
        rw [List.cons_append, List.nil_append] at hpq
        injection hpq with h1 h2
        rw [h1]
      | cons y p'' =>
        cases p'' with
        | nil =>
          rw [List.cons_append, List.cons_append, List.nil_append] at hpq
          injection hpq with h1 h2
          injection h2 with h2 h3
          subst h1
          subst h2
          exact absurd hrem hnc
        | cons z p''' =>
          have hlen := congrArg List.length hpq
          simp only [List.length_append, List.length_cons, List.length_nil] at hlen
          omega

/-- C8 witness from the consistent empty state. -/
theorem mutation_write_through_witness :
    consistent (AppState.mk none none (initialRegion none)) ∧
      (consistent (runSteps (AppState.mk none none (initialRegion none))
          (setMarkerSteps ⟨⟨1, 0⟩, ⟨2, 0⟩⟩)) ∧
        consistent (runSteps (AppState.mk none none (initialRegion none)) removeMarkerSteps) ∧
        (∀ p q, p ++ q = setMarkerSteps ⟨⟨1, 0⟩, ⟨2, 0⟩⟩ →
          ¬consistent (runSteps (AppState.mk none none (initialRegion none)) p) →
          p = [MStep.setMem (some (coordJson ⟨⟨1, 0⟩, ⟨2, 0⟩⟩))]) ∧
        (∀ p q, p ++ q = removeMarkerSteps →
          ¬consistent (runSteps (AppState.mk none none (initialRegion none)) p) →
          p = [MStep.setMem none])) :=
  ⟨rfl, mutation_write_through ⟨⟨1, 0⟩, ⟨2, 0⟩⟩ _ rfl⟩

/-- C9: the load operation performs no shape validation: every non-empty
stored string that parses as JSON, of whatever shape, has its parsed
value installed as the in-memory marker rather than being treated as
absent. -/
theorem load_no_shape_validation (s : String) (v : Json) (h1 : s ≠ "")
    (h2 : parseJson s = some v) :
    (loadMarker (some s)).marker = some v := by
  simp [loadMarker, h1, h2]

/-- C9 witness at the non-coordinate document `{"foo":1}`. -/
theorem load_no_shape_validation_witness :
    ("\x7b\"foo\":1\x7d" : String) ≠ "" ∧
      parseJson "\x7b\"foo\":1\x7d" = some (Json.obj [("foo", Json.num ⟨1, 0⟩)]) ∧
      (loadMarker (some "\x7b\"foo\":1\x7d")).marker = some (Json.obj [("foo", Json.num ⟨1, 0⟩)]) :=
  ⟨by decide, rfl, load_no_shape_validation _ _ (by decide) rfl⟩

/-- C10: in both the save operation and the center-on-me operation, the
position fix is requested only when the permission request returned
`'granted'`: on every execution with any other status the position-fetch
call is never made. -/
theorem position_fix_gated (status : String) (h : status ≠ "granted")
    (fix : Coordinate) (st : AppState) :
    Event.getPosition ∉ (handleSetMarker status fix st).2 ∧
      Event.getPosition ∉ (centerMapOnUser status fix st).2 := by
  rw [handleSetMarker, if_pos h, centerMapOnUser, if_pos h]
  exact ⟨by simp, by simp⟩

/-- C10 witness at status `'undetermined'`. -/
theorem position_fix_gated_witness :
    ("undetermined" : String) ≠ "granted" ∧
      (Event.getPosition ∉ (handleSetMarker "undetermined" ⟨⟨1, 0⟩, ⟨2, 0⟩⟩
          (AppState.mk none none (initialRegion none))).2 ∧
        Event.getPosition ∉ (centerMapOnUser "undetermined" ⟨⟨1, 0⟩, ⟨2, 0⟩⟩
          (AppState.mk none none (initialRegion none))).2) :=
  ⟨by decide, position_fix_gated "undetermined" (by decide) _ _⟩

end ParkPin
